import Mathlib

/-!
Shallow embedding of `src/generation/post_assets.py` (hashtag and image
asset generation for a personal-brand content generator).

The hashtag pipeline (`_parse_hashtags`, `generate_hashtags`) is embedded
over an executable model of Python's `json.loads` and of the string
methods the code uses (`strip`, `find`, `rfind`, `startswith`, `lstrip`,
`replace`, `join`).  The image pipeline (`generate_post_image`) is
embedded with the external image client, the environment variable, the
temporary-file name source and the filesystem made explicit inputs, and
with Python exceptions modelled as `Except String`.
-/

/-- Characters stripped by Python's `str.strip()` (the `str.isspace`
set over the code points that can appear here). -/
def isPyStrWS (c : Char) : Bool :=
  let n := c.toNat
  n == 0x20 || n == 0x09 || n == 0x0a || n == 0x0d || n == 0x0b || n == 0x0c ||
  n == 0x1c || n == 0x1d || n == 0x1e || n == 0x1f || n == 0x85 || n == 0xa0 ||
  n == 0x1680 || (0x2000 ≤ n && n ≤ 0x200a) || n == 0x2028 || n == 0x2029 ||
  n == 0x202f || n == 0x205f || n == 0x3000

/-- Whitespace accepted between tokens by Python's `json` module. -/
def isJsonWS (c : Char) : Bool :=
  c == ' ' || c == '\t' || c == '\n' || c == '\r'

def skipJsonWS (cs : List Char) : List Char := cs.dropWhile isJsonWS

/-- `str.strip()` on a character list: drop leading and trailing whitespace. -/
def stripL (cs : List Char) : List Char :=
  ((cs.dropWhile isPyStrWS).reverse.dropWhile isPyStrWS).reverse

/-- Python `str.strip()`. -/
def pyStrip (s : String) : String := ⟨stripL s.data⟩

/-- Python `str.replace(" ", "")`: remove every space character (only
U+0020, exactly as the source writes it). -/
def removeSpacesL (cs : List Char) : List Char := cs.filter (fun c => c != ' ')

/-- Python `str.startswith("#")` on a character list. -/
def startsHash : List Char → Bool
  | [] => false
  | c :: _ => c == '#'

/-- Number of leading `#` characters (used to state tag-shape claims). -/
def leadHashes (cs : List Char) : Nat := (cs.takeWhile (fun c => c == '#')).length

/-- The `\x7b` character (left curly bracket). -/
def braceL : Char := Char.ofNat 123

/-- The `\x7d` character (right curly bracket). -/
def braceR : Char := Char.ofNat 125

/-- The double-quote character. -/
def quoteCh : Char := Char.ofNat 34

/-- The backslash character. -/
def backslashCh : Char := Char.ofNat 92

/-- Python `str.find(ch)`: index of the first occurrence (`None` for -1). -/
def findCharIdx (cs : List Char) (c : Char) : Option Nat := cs.findIdx? (fun d => d == c)

/-- Python `str.rfind(ch)`: index of the last occurrence (`None` for -1). -/
def rfindCharIdx (cs : List Char) (c : Char) : Option Nat :=
  match cs.reverse.findIdx? (fun d => d == c) with
  | some i => some (cs.length - 1 - i)
  | none => none

/-- Python slice `text[a : b + 1]`. -/
def sliceIncl (cs : List Char) (a b : Nat) : List Char := (cs.take (b + 1)).drop a

/-- Values produced by Python's `json.loads`.  Integer literals become
Python `int` (arbitrary precision); other numeric literals are kept as
their lexeme (the embedding never needs float arithmetic). -/
inductive JVal where
  | null
  | bool (b : Bool)
  | int (n : Int)
  | float (lit : String)
  | str (s : String)
  | arr (xs : List JVal)
  | obj (kvs : List (String × JVal))

def hexDigVal (c : Char) : Option Nat :=
  if '0' ≤ c && c ≤ '9' then some (c.toNat - 48)
  else if 'a' ≤ c && c ≤ 'f' then some (c.toNat - 87)
  else if 'A' ≤ c && c ≤ 'F' then some (c.toNat - 55)
  else none

/-- Code point to character.  A lone surrogate (which Python would keep as
an unpaired surrogate in the `str`) is approximated by U+FFFD; no claim
exercises this corner. -/
def charFromCode (n : Nat) : Char :=
  if 0xd800 ≤ n && n ≤ 0xdfff then Char.ofNat 0xfffd else Char.ofNat n

/-- Body of a JSON string literal, after the opening quote: strict mode
(unescaped control characters are rejected), the standard escapes, and
`\uXXXX` with UTF-16 surrogate pairs combined.  `fuel` is spent once per
consumed character so the recursion is structural. -/
def parseStrBody : Nat → List Char → List Char → Option (String × List Char)
  | 0, _, _ => none
  | _ + 1, _, [] => none
  | fuel + 1, acc, c :: rest =>
    if c == quoteCh then some (⟨acc.reverse⟩, rest)
    else if c == backslashCh then
      match rest with
      | [] => none
      | e :: rest2 =>
        if e == quoteCh then parseStrBody fuel (quoteCh :: acc) rest2
        else if e == backslashCh then parseStrBody fuel (backslashCh :: acc) rest2
        else if e == '/' then parseStrBody fuel ('/' :: acc) rest2
        else if e == 'b' then parseStrBody fuel ('\x08' :: acc) rest2
        else if e == 'f' then parseStrBody fuel ('\x0c' :: acc) rest2
        else if e == 'n' then parseStrBody fuel ('\n' :: acc) rest2
        else if e == 'r' then parseStrBody fuel ('\x0d' :: acc) rest2
        else if e == 't' then parseStrBody fuel ('\t' :: acc) rest2
        else if e == 'u' then
          match rest2 with
          | h1 :: h2 :: h3 :: h4 :: rest3 =>
            match hexDigVal h1, hexDigVal h2, hexDigVal h3, hexDigVal h4 with
            | some a, some b, some c2, some d =>
              let n := ((a * 16 + b) * 16 + c2) * 16 + d
              if 0xd800 ≤ n && n ≤ 0xdbff then
                match rest3 with
                | b1 :: u2 :: h5 :: h6 :: h7 :: h8 :: rest4 =>
                  if b1 == backslashCh && u2 == 'u' then
                    match hexDigVal h5, hexDigVal h6, hexDigVal h7, hexDigVal h8 with
                    | some a2, some b2, some c3, some d2 =>
                      let m := ((a2 * 16 + b2) * 16 + c3) * 16 + d2
                      if 0xdc00 ≤ m && m ≤ 0xdfff then
                        parseStrBody fuel
                          (Char.ofNat (0x10000 + (n - 0xd800) * 0x400 + (m - 0xdc00)) :: acc) rest4
                      else parseStrBody fuel (charFromCode n :: acc) rest3
                    | _, _, _, _ => parseStrBody fuel (charFromCode n :: acc) rest3
                  else parseStrBody fuel (charFromCode n :: acc) rest3
                | _ => parseStrBody fuel (charFromCode n :: acc) rest3
              else parseStrBody fuel (charFromCode n :: acc) rest3
            | _, _, _, _ => none
          | _ => none
        else none
    else if c.toNat < 0x20 then none
    else parseStrBody fuel (c :: acc) rest

def natOfDigits (ds : List Char) : Nat :=
  ds.foldl (fun a c => a * 10 + (c.toNat - 48)) 0

/-- A JSON number.  Malformed fraction and exponent parts make the whole
parse fail; in Python the regex stops earlier and the stray character then
fails at the next token position, so the observable outcome of `json.loads`
is identical. -/
def parseNum (cs : List Char) : Option (JVal × List Char) :=
  let negcs : Bool × List Char := match cs with
    | c :: r => if c == '-' then (true, r) else (false, cs)
    | [] => (false, cs)
  let neg := negcs.1
  let cs1 := negcs.2
  let ip := cs1.takeWhile Char.isDigit
  let r1 := cs1.dropWhile Char.isDigit
  if ip.isEmpty then none
  else if decide (1 < ip.length) && (ip.head? == some '0') then none
  else
    let fpr : List Char × List Char := match r1 with
      | c :: rr => if c == '.' then (rr.takeWhile Char.isDigit, rr.dropWhile Char.isDigit) else ([], r1)
      | [] => ([], r1)
    let fp := fpr.1
    let r2 := fpr.2
    if (r1.head? == some '.') && fp.isEmpty then none
    else
      let finish : Bool → List Char → Option (JVal × List Char) := fun hasExp rest =>
        if fp.isEmpty && !hasExp then
          some (JVal.int (if neg then -(natOfDigits ip : Int) else (natOfDigits ip : Int)), rest)
        else
          some (JVal.float ⟨cs.take (cs.length - rest.length)⟩, rest)
      match r2 with
      | e :: rr =>
        if e == 'e' || e == 'E' then
          let rr2 : List Char := match rr with
            | s :: rr3 => if s == '+' || s == '-' then rr3 else rr
            | [] => rr
          let ds := rr2.takeWhile Char.isDigit
          if ds.isEmpty then none
          else finish true (rr2.dropWhile Char.isDigit)
        else finish false r2
      | [] => finish false []

/-- Keyword literals accepted by Python's `json.loads` (including its
`NaN` / `Infinity` extensions), falling back to number parsing. -/
def parseLit (cs : List Char) : Option (JVal × List Char) :=
  match cs with
  | 't' :: 'r' :: 'u' :: 'e' :: r => some (JVal.bool true, r)
  | 'f' :: 'a' :: 'l' :: 's' :: 'e' :: r => some (JVal.bool false, r)
  | 'n' :: 'u' :: 'l' :: 'l' :: r => some (JVal.null, r)
  | 'N' :: 'a' :: 'N' :: r => some (JVal.float "NaN", r)
  | 'I' :: 'n' :: 'f' :: 'i' :: 'n' :: 'i' :: 't' :: 'y' :: r => some (JVal.float "Infinity", r)
  | '-' :: 'I' :: 'n' :: 'f' :: 'i' :: 'n' :: 'i' :: 't' :: 'y' :: r =>
    some (JVal.float "-Infinity", r)
  | _ => parseNum cs

/-- Parser mode: a single value, the items of an array after `[`, or the
members of an object after `\x7b` (with at least one member present). -/
inductive PMode where
  | val
  | arrItems (acc : List JVal)
  | objItems (acc : List (String × JVal))

/-- Recursive-descent JSON parser; `fuel` decreases on every recursive
call and every call consumes at least one character, so fuel
`input length + 1` never runs out on accepted input. -/
def parseJ : Nat → PMode → List Char → Option (JVal × List Char)
  | 0, _, _ => none
  | fuel + 1, PMode.val, cs =>
    match skipJsonWS cs with
    | [] => none
    | c :: rest =>
      if c == braceL then
        match skipJsonWS rest with
        | [] => none
        | d :: rest2 =>
          if d == braceR then some (JVal.obj [], rest2)
          else parseJ fuel (PMode.objItems []) (d :: rest2)
      else if c == '[' then
        match skipJsonWS rest with
        | [] => none
        | d :: rest2 =>
          if d == ']' then some (JVal.arr [], rest2)
          else parseJ fuel (PMode.arrItems []) (d :: rest2)
      else if c == quoteCh then
        match parseStrBody (rest.length + 1) [] rest with
        | some (s, rest2) => some (JVal.str s, rest2)
        | none => none
      else parseLit (c :: rest)
  | fuel + 1, PMode.arrItems acc, cs =>
    match parseJ fuel PMode.val cs with
    | none => none
    | some (v, rest) =>
      match skipJsonWS rest with
      | [] => none
      | c :: rest2 =>
        if c == ',' then parseJ fuel (PMode.arrItems (v :: acc)) rest2
        else if c == ']' then some (JVal.arr (v :: acc).reverse, rest2)
        else none
  | fuel + 1, PMode.objItems acc, cs =>
    match skipJsonWS cs with
    | [] => none
    | c :: rest =>
      if c == quoteCh then
        match parseStrBody (rest.length + 1) [] rest with
        | none => none
        | some (k, rest2) =>
          match skipJsonWS rest2 with
          | [] => none
          | d :: rest3 =>
            if d == ':' then
              match parseJ fuel PMode.val rest3 with
              | none => none
              | some (v, rest4) =>
                match skipJsonWS rest4 with
                | [] => none
                | e :: rest5 =>
                  if e == ',' then parseJ fuel (PMode.objItems ((k, v) :: acc)) rest5
                  else if e == braceR then some (JVal.obj ((k, v) :: acc).reverse, rest5)
                  else none
            else none
      else none

/-- Python `json.loads`: parse one value, then require only whitespace to
remain. -/
def jsonLoads (s : String) : Option JVal :=
  match parseJ (s.data.length + 1) PMode.val s.data with
  | some (v, rest) => if (skipJsonWS rest).isEmpty then some v else none
  | none => none

/-- Python `dict.get(k, d)` on the parsed object: later duplicate keys win,
as in the `dict` that `json.loads` builds. -/
def objGetD (kvs : List (String × JVal)) (k : String) (d : JVal) : JVal :=
  match kvs.reverse.find? (fun p => p.1 == k) with
  | some p => p.2
  | none => d

/-- Python `str()` of a parsed JSON value, as applied to a tag element
(`str(tag)` in the source).  Strings pass through unchanged — the only
case any claim exercises.  For containers the single-quoted `repr` of
nested strings is approximated without quoting or escaping, and float
lexemes are not re-normalised the way Python would print them. -/
def pyReprV : Nat → JVal → String
  | 0, _ => ""
  | _ + 1, JVal.null => "None"
  | _ + 1, JVal.bool b => if b then "True" else "False"
  | _ + 1, JVal.int n => toString n
  | _ + 1, JVal.float lit => lit
  | _ + 1, JVal.str s => s
  | fuel + 1, JVal.arr xs =>
    "[" ++ String.intercalate ", " (xs.map (pyReprV fuel)) ++ "]"
  | fuel + 1, JVal.obj kvs =>
    ⟨braceL :: (String.intercalate ", "
      (kvs.map (fun p => p.1 ++ ": " ++ pyReprV fuel p.2))).data ++ [braceR]⟩

/-- Python `str(tag)` for a tag element.  Containers (reachable only for
a malformed tag list, which no claim exercises) render through `pyReprV`
with a fuel far beyond any representable nesting depth. -/
def pyStr : JVal → String
  | JVal.str s => s
  | JVal.null => "None"
  | JVal.bool b => if b then "True" else "False"
  | JVal.int n => toString n
  | JVal.float lit => lit
  | JVal.arr xs => pyReprV 1000000 (JVal.arr xs)
  | JVal.obj kvs => pyReprV 1000000 (JVal.obj kvs)

/-- Lines 50-52 of the source, on the already stripped, non-empty tag text:
`if not tag_text.startswith("#"): tag_text = f"#\x7btag_text.lstrip('#')\x7d"`
followed by `tag_text.replace(" ", "")`.  Note the `#`-prepending branch
runs only when the text does not already start with `#`. -/
def cleanTagCore (t : List Char) : List Char :=
  if startsHash t then removeSpacesL t
  else removeSpacesL ('#' :: t.dropWhile (fun c => c == '#'))

/-- One iteration of the tag loop (lines 46-52): `str(tag).strip()`, skip
if empty, normalise the leading `#`, remove spaces. -/
def cleanTagOpt (tag : JVal) : Option String :=
  let t := stripL (pyStr tag).data
  if t.isEmpty then none else some ⟨cleanTagCore t⟩

/-- The `cleaned` list built by the tag loop. -/
def cleanTags (tags : List JVal) : List String := tags.filterMap cleanTagOpt

/-- A tag element that survives the `if not tag_text: continue` filter. -/
def validTag (v : JVal) : Bool := !(stripL (pyStr v).data).isEmpty

/-- Substring recovery (lines 33-40): first `\x7b`, last `\x7d`, and a
parse of the inclusive slice; `none` covers both `return text` paths. -/
def recoverPayload (cs : List Char) : Option JVal :=
  match findCharIdx cs braceL, rfindCharIdx cs braceR with
  | some st, some en => if en ≤ st then none else jsonLoads ⟨sliceIncl cs st en⟩
  | _, _ => none

/-- The parse cascade of lines 30-40: strict `json.loads`, then substring
recovery. -/
def extractPayload (text : String) : Option JVal :=
  match jsonLoads text with
  | some v => some v
  | none => recoverPayload text.data

/-- Python `raw_text or ""` where `raw_text` may be `None`. -/
def pyOrStr : Option String → String
  | none => ""
  | some s => s

/-- `_parse_hashtags` (lines 26-53).  The argument is `Option String`
because `generate_hashtags` can pass Python `None` through
`llm_result.get("content", "")`.  A payload that parses to a non-`dict`
raises `AttributeError` at `payload.get` (line 42); the exception text is
abbreviated.  All other paths return normally. -/
def parseHashtagsE (raw_text : Option String) : Except String String :=
  let text := pyStrip (pyOrStr raw_text)
  if text = "" then Except.ok ""
  else
    match extractPayload text with
    | none => Except.ok text
    | some (JVal.obj kvs) =>
      match objGetD kvs "hashtags" (JVal.arr []) with
      | JVal.arr tags => Except.ok (String.intercalate " " ((cleanTags tags).take 10))
      | _ => Except.ok ""
    | some _ => Except.error "AttributeError: payload has no attribute get"

/-- The result of the external completion client as `generate_hashtags`
reads it.  `content` distinguishes a missing key (`.get` default `""`),
a stored `None`, and a string; the other entries are kept as parsed
values, with `none` meaning the key is absent so that `.get` defaults
apply. -/
structure LlmResult where
  content : Option (Option String)
  modelV : Option JVal
  attemptsV : Option JVal
  usageV : Option JVal
  lengthV : Option JVal
  costV : Option JVal
  errorV : Option JVal

/-- The inner `"llm"` dictionary of the metadata built on lines 69-78. -/
structure LlmMeta where
  model : JVal
  attempts : JVal
  usage : JVal
  length : JVal
  estimated_cost_usd : JVal
  error : JVal

/-- `llm_result.get("content", "")`: default only when the key is absent;
a stored `None` is passed through. -/
def contentArg : Option (Option String) → Option String
  | none => some ""
  | some none => none
  | some (some s) => some s

/-- `generate_hashtags` (lines 56-79), with the completion client's
result supplied as input (the client itself is an external collaborator;
its own failures propagate before this code runs, per the spec).  The
prompt-building lines do not affect the returned value. -/
def generate_hashtags (llm_result : LlmResult) : Except String (String × LlmMeta) :=
  match parseHashtagsE (contentArg llm_result.content) with
  | Except.error e => Except.error e
  | Except.ok hashtags =>
    Except.ok (hashtags,
      { model := llm_result.modelV.getD JVal.null
        attempts := llm_result.attemptsV.getD JVal.null
        usage := llm_result.usageV.getD (JVal.obj [])
        length := llm_result.lengthV.getD (JVal.obj [])
        estimated_cost_usd := llm_result.costV.getD (JVal.float "0.0")
        error := llm_result.errorV.getD JVal.null })

/-- Value of a standard base64 alphabet character. -/
def b64CharVal (c : Char) : Option Nat :=
  if 'A' ≤ c && c ≤ 'Z' then some (c.toNat - 65)
  else if 'a' ≤ c && c ≤ 'z' then some (c.toNat - 71)
  else if '0' ≤ c && c ≤ '9' then some (c.toNat + 4)
  else if c == '+' then some 62
  else if c == '/' then some 63
  else none

/-- Decode base64 data characters in groups of four (a trailing group of
two or three characters carries one or two bytes). -/
def b64Groups : List Nat → Option (List Nat)
  | [] => some []
  | [_] => none
  | [a, b] => some [a * 4 + b / 16]
  | [a, b, c] => some [a * 4 + b / 16, (b % 16) * 16 + c / 4]
  | a :: b :: c :: d :: rest =>
    match b64Groups rest with
    | some bs => some ((a * 4 + b / 16) :: ((b % 16) * 16 + c / 4) :: ((c % 4) * 64 + d) :: bs)
    | none => none

/-- Python `base64.b64decode` on a `str`, for the standard shapes: the
string must be ASCII (`str.encode("ascii")` would raise otherwise);
characters outside the alphabet are discarded; padding `=` may appear
only at the end, with the padded length a multiple of four.  Inputs
outside this shape are treated as decode errors. -/
def b64decode (s : String) : Option (List Nat) :=
  if s.data.any (fun c => 128 ≤ c.toNat) then none
  else
    let cs := s.data.filter (fun c => (b64CharVal c).isSome || c == '=')
    let dataCs := cs.takeWhile (fun c => c != '=')
    let padCs := cs.dropWhile (fun c => c != '=')
    if padCs.any (fun c => c != '=') then none
    else if decide (2 < padCs.length) then none
    else if (dataCs.length + padCs.length) % 4 != 0 then none
    else b64Groups (dataCs.filterMap b64CharVal)

/-- The value stored under `"timeout"` in the config: absent (default 60),
a number, or a string that `float()` must convert. -/
inductive TimeoutVal where
  | absent
  | num (n : Int)
  | strv (s : String)

/-- Acceptable argument of Python `float(str)` after stripping: sign,
digits with optional point and exponent, or `inf` / `infinity` / `nan`
(case-insensitive; numeric-literal underscores are not modelled). -/
def isFloatLit (s : String) : Bool :=
  let cs := s.data
  let cs1 : List Char := match cs with
    | c :: r => if c == '+' || c == '-' then r else cs
    | [] => cs
  let low := cs1.map Char.toLower
  if low == "inf".data || low == "infinity".data || low == "nan".data then true
  else
    let ip := cs1.takeWhile Char.isDigit
    let r1 := cs1.dropWhile Char.isDigit
    let fpr : List Char × List Char := match r1 with
      | c :: rr => if c == '.' then (rr.takeWhile Char.isDigit, rr.dropWhile Char.isDigit) else ([], r1)
      | [] => ([], r1)
    if ip.isEmpty && fpr.1.isEmpty then false
    else
      match fpr.2 with
      | [] => true
      | e :: rr =>
        if e == 'e' || e == 'E' then
          let rr2 : List Char := match rr with
            | c :: rr3 => if c == '+' || c == '-' then rr3 else rr
            | [] => rr
          !rr2.isEmpty && rr2.all Char.isDigit
        else false

/-- `float(config.get("timeout", 60))` on line 89: a non-convertible
string raises `ValueError` (the message drops `repr` quoting). -/
def floatConv : TimeoutVal → Except String Unit
  | TimeoutVal.absent => Except.ok ()
  | TimeoutVal.num _ => Except.ok ()
  | TimeoutVal.strv s =>
    if isFloatLit (pyStrip s) then Except.ok ()
    else Except.error ("could not convert string to float: " ++ s)

/-- The configuration entries `generate_post_image` reads.  `none` means
the key is absent so the `.get` defaults apply; an `api_key` of `""` is
falsy like an absent one. -/
structure ImgConfig where
  api_key : Option String
  image_model : Option String
  image_size : Option String
  timeout : TimeoutVal

/-- Python truthiness of an optional string (`None` and `""` are falsy). -/
def truthyS : Option String → Bool
  | none => false
  | some s => s != ""

/-- Line 83: `config.get("api_key") or os.getenv("OPENAI_API_KEY")`. -/
def resolveApiKey (cfg : ImgConfig) (envKey : Option String) : Option String :=
  if truthyS cfg.api_key then cfg.api_key else envKey

/-- The external world of one `generate_post_image` call: the environment
credential, the image client's outcome (exception text, or the
`b64_json` field of the first response item — `none` when the attribute
is missing), the texts of the exceptions a failed decode or file write
would raise, and the random part of the temporary file name. -/
structure ImgEnv where
  apiKeyEnv : Option String
  clientResult : Except String (Option String)
  decodeErrText : String
  writeResult : Except String Unit
  tmpRand : String

/-- The temporary-file area: file name to byte contents. -/
abbrev FileSys : Type := List (String × List Nat)

def fsFind (fs : FileSys) (name : String) : Option (List Nat) :=
  match (fs : List (String × List Nat)).find? (fun p => p.1 == name) with
  | some p => some p.2
  | none => none

/-- Lookup in a metadata dictionary literal. -/
def mFind (m : List (String × String)) (k : String) : Option String :=
  match m.find? (fun p => p.1 == k) with
  | some p => some p.2
  | none => none

/-- The `try` block of lines 108-124: client call, `b64_json` extraction
(`if not b64_data` also catches an empty string), base64 decode, and the
temporary-file write with prefix `pbcg_` and `.png` ending.  Exceptions
are `Except.error` with the exception's text. -/
def imgTryBlock (image_model image_size : String) (env : ImgEnv) (fs : FileSys) :
    Except String (Option String × List (String × String) × FileSys) :=
  match env.clientResult with
  | Except.error t => Except.error t
  | Except.ok b64_data =>
    if truthyS b64_data = false then
      Except.ok (none, [("error", "Image response missing b64_json"), ("model", image_model)], fs)
    else
      match b64decode (pyOrStr b64_data) with
      | none => Except.error env.decodeErrText
      | some image_bytes =>
        match env.writeResult with
        | Except.error t => Except.error t
        | Except.ok _ =>
          let image_path := "pbcg_" ++ env.tmpRand ++ ".png"
          Except.ok (some image_path,
            [("model", image_model), ("size", image_size), ("path", image_path)],
            ((image_path, image_bytes) :: fs : List (String × List Nat)))

/-- `generate_post_image` (lines 82-126).  The post and topic only shape
the prompt sent to the external client, which is abstracted by
`env.clientResult`.  The credential check and the client construction
(including the `float` conversion of the timeout) happen before the
`try`, so an exception there propagates (`Except.error` at the top
level); exceptions inside the `try` are converted to error metadata. -/
def generate_post_image (_post _topic : String) (cfg : ImgConfig) (env : ImgEnv)
    (fs : FileSys) : Except String (Option String × List (String × String) × FileSys) :=
  let api_key := resolveApiKey cfg env.apiKeyEnv
  if truthyS api_key = false then
    Except.ok (none, [("error", "OPENAI_API_KEY not set")], fs)
  else
    let image_model := cfg.image_model.getD "gpt-image-1"
    let image_size := cfg.image_size.getD "1024x1024"
    match floatConv cfg.timeout with
    | Except.error t => Except.error t
    | Except.ok _ =>
      match imgTryBlock image_model image_size env fs with
      | Except.ok r => Except.ok r
      | Except.error exc =>
        Except.ok (none, [("error", exc), ("model", image_model), ("size", image_size)], fs)

/-- Some exception caught by the `try` of `generate_post_image` carries
empty text (`str(exc) == ""`). -/
def caughtEmptyText (env : ImgEnv) : Prop :=
  env.clientResult = Except.error "" ∨ env.decodeErrText = "" ∨
  env.writeResult = Except.error ""

/-! Helper lemmas about the tag normalizer. -/

theorem startsHash_true_cons {t : List Char} (h : startsHash t = true) :
    ∃ rest, t = '#' :: rest := by
  cases t with
  | nil => simp [startsHash] at h
  | cons c rest =>
    refine ⟨rest, ?_⟩
    simp only [startsHash] at h
    rw [eq_of_beq h]

theorem removeSpacesL_cons_hash (l : List Char) :
    removeSpacesL ('#' :: l) = '#' :: removeSpacesL l := by
  simp [removeSpacesL]

theorem cleanTagCore_props (t : List Char) :
    cleanTagCore t ≠ [] ∧ startsHash (cleanTagCore t) = true ∧ ' ' ∉ cleanTagCore t := by
  unfold cleanTagCore
  by_cases h : startsHash t = true
  · obtain ⟨rest, hrest⟩ := startsHash_true_cons h
    subst hrest
    rw [if_pos h, removeSpacesL_cons_hash]
    refine ⟨by simp, by simp [startsHash], ?_⟩
    intro hmem
    rcases List.mem_cons.mp hmem with h1 | h1
    · exact absurd h1 (by decide)
    · have := (List.mem_filter.mp h1).2
      simp at this
  · rw [if_neg h, removeSpacesL_cons_hash]
    refine ⟨by simp, by simp [startsHash], ?_⟩
    intro hmem
    rcases List.mem_cons.mp hmem with h1 | h1
    · exact absurd h1 (by decide)
    · have := (List.mem_filter.mp h1).2
      simp at this

theorem cleanTagOpt_some_props {v : JVal} {r : String} (h : cleanTagOpt v = some r) :
    r ≠ "" ∧ startsHash r.data = true ∧ ' ' ∉ r.data := by
  unfold cleanTagOpt at h
  by_cases he : (stripL (pyStr v).data).isEmpty
  · simp [he] at h
  · simp only [he, Bool.false_eq_true, if_false, Option.some.injEq] at h
    subst h
    obtain ⟨h1, h2, h3⟩ := cleanTagCore_props (stripL (pyStr v).data)
    refine ⟨?_, h2, h3⟩
    intro hr
    have : cleanTagCore (stripL (pyStr v).data) = [] := by
      have := congrArg String.data hr
      simpa using this
    exact h1 this

theorem cleanTags_length (tags : List JVal) :
    (cleanTags tags).length = (tags.filter validTag).length := by
  induction tags with
  | nil => rfl
  | cons v rest ih =>
    by_cases he : (stripL (pyStr v).data).isEmpty
    · simp [cleanTags, List.filterMap_cons, cleanTagOpt, validTag, he] at ih ⊢
      exact ih
    · simp [cleanTags, List.filterMap_cons, cleanTagOpt, validTag, he] at ih ⊢
      exact ih

/-- C6 (confirmed): for every completion text that is empty or
whitespace-only (its Python `strip()` is empty), `_parse_hashtags`
returns the empty string immediately: no tags are emitted, and the
result carries no error (it is a normal return, not an exception). -/
theorem c6_empty_text (raw : String) (h : pyStrip raw = "") :
    parseHashtagsE (some raw) = Except.ok "" := by
  unfold parseHashtagsE
  simp [pyOrStr, h]

theorem c6_empty_text_witness :
    pyStrip " \t\x0a  " = "" ∧ parseHashtagsE (some " \t\x0a  ") = Except.ok "" :=
  ⟨by decide, c6_empty_text " \t\x0a  " (by decide)⟩

/-- C3 (corrected): when the strict parse of the stripped text fails and
substring recovery also fails (`recoverPayload = none` covers both a
missing `\x7b`/`\x7d` pair and a failed parse of the slice), the
extractor returns the *stripped* text — not the original raw text, which
the claim asserted. -/
theorem c3_fallback_amended (raw : String) (h0 : pyStrip raw ≠ "")
    (h1 : jsonLoads (pyStrip raw) = none)
    (h2 : recoverPayload (pyStrip raw).data = none) :
    parseHashtagsE (some raw) = Except.ok (pyStrip raw) := by
  unfold parseHashtagsE extractPayload
  simp only [pyOrStr]
  rw [if_neg h0, h1, h2]

theorem c3_fallback_amended_witness :
    pyStrip " no braces here " ≠ "" ∧
    jsonLoads (pyStrip " no braces here ") = none ∧
    recoverPayload (pyStrip " no braces here ").data = none ∧
    parseHashtagsE (some " no braces here ") = Except.ok (pyStrip " no braces here ") :=
  ⟨by decide, by rfl, by rfl,
    c3_fallback_amended " no braces here " (by decide) (by rfl) (by rfl)⟩

/-- C3 counterexample: on the raw text `" x "` both parses fail, yet the
extractor returns `"x"`, the stripped text, not the original raw text
unmodified. -/
theorem c3_counterexample :
    parseHashtagsE (some " x ") = Except.ok "x" ∧ "x" ≠ " x " :=
  ⟨by rfl, by decide⟩

/-- C7 (confirmed): when the strict parse fails but the first `\x7b`
precedes the last `\x7d` and the inclusive slice between them parses as a
schema object carrying a tag list, the extractor returns the cleaned,
space-joined tags of that recovered object. -/
theorem c7_substring_recovery (raw : String) (st en : Nat)
    (kvs : List (String × JVal)) (tags : List JVal)
    (h1 : jsonLoads (pyStrip raw) = none)
    (hf : findCharIdx (pyStrip raw).data braceL = some st)
    (hr : rfindCharIdx (pyStrip raw).data braceR = some en)
    (hlt : st < en)
    (hp : jsonLoads ⟨sliceIncl (pyStrip raw).data st en⟩ = some (JVal.obj kvs))
    (ht : objGetD kvs "hashtags" (JVal.arr []) = JVal.arr tags) :
    parseHashtagsE (some raw) =
      Except.ok (String.intercalate " " ((cleanTags tags).take 10)) := by
  have h0 : pyStrip raw ≠ "" := by
    intro h
    rw [h] at hf
    simp [findCharIdx] at hf
  have hle : ¬ en ≤ st := Nat.not_le.mpr hlt
  unfold parseHashtagsE extractPayload recoverPayload
  simp only [pyOrStr]
  rw [if_neg h0, h1, hf, hr]
  simp only [if_neg hle, hp, ht]

theorem c7_substring_recovery_witness :
    jsonLoads (pyStrip "Sure! \x7b\"hashtags\":[\"AI\",\"#SME\"]\x7d Thanks") = none ∧
    parseHashtagsE (some "Sure! \x7b\"hashtags\":[\"AI\",\"#SME\"]\x7d Thanks") =
      Except.ok "#AI #SME" := by
  refine ⟨by rfl, ?_⟩
  have h := c7_substring_recovery "Sure! \x7b\"hashtags\":[\"AI\",\"#SME\"]\x7d Thanks"
    6 31 [("hashtags", JVal.arr [JVal.str "AI", JVal.str "#SME"])]
    [JVal.str "AI", JVal.str "#SME"]
    (by rfl) (by rfl) (by rfl) (by decide) (by rfl) (by rfl)
  exact h

theorem dropHash_of_not_startsHash {t : List Char} (h : startsHash t = false) :
    t.dropWhile (fun c => c == '#') = t := by
  cases t with
  | nil => rfl
  | cons c rest =>
    simp only [startsHash] at h
    simp [List.dropWhile_cons, h]

/-- C2 counterexample: the source prepends a `#` only when the stripped
tag does *not* already start with one, so `"##growth"` is kept verbatim
instead of being reduced to `"#growth"` as the claim states. -/
theorem c2_counterexample :
    cleanTagOpt (JVal.str "##growth") = some "##growth" ∧ "##growth" ≠ "#growth" :=
  ⟨by decide, by decide⟩

/-- C2 (corrected): the normalizer guarantees *at least* one leading `#`:
a stripped tag already starting with `#` keeps all its leading `#`
characters (only internal spaces are removed), and otherwise exactly one
`#` is prepended (the `lstrip('#')` in that branch is vacuous, since the
text does not start with `#`).  In particular `"##growth"` normalizes to
`"##growth"`, not `"#growth"`. -/
theorem c2_tag_normalizer_amended (s : String) (h : stripL s.data ≠ []) :
    ∃ r, cleanTagOpt (JVal.str s) = some r
      ∧ startsHash r.data = true
      ∧ (startsHash (stripL s.data) = true → r.data = removeSpacesL (stripL s.data))
      ∧ (startsHash (stripL s.data) = false →
          r.data = '#' :: removeSpacesL (stripL s.data)) := by
  refine ⟨⟨cleanTagCore (stripL s.data)⟩, ?_, ?_, ?_, ?_⟩
  · unfold cleanTagOpt
    simp only [pyStr]
    rw [if_neg (by simpa [List.isEmpty_iff] using h)]
  · exact (cleanTagCore_props (stripL s.data)).2.1
  · intro hs
    unfold cleanTagCore
    rw [if_pos hs]
  · intro hs
    unfold cleanTagCore
    rw [if_neg (by simp [hs]), dropHash_of_not_startsHash hs, removeSpacesL_cons_hash]

theorem c2_tag_normalizer_amended_witness :
    stripL "##growth".data ≠ [] ∧
    ∃ r, cleanTagOpt (JVal.str "##growth") = some r
      ∧ startsHash r.data = true
      ∧ (startsHash (stripL "##growth".data) = true →
          r.data = removeSpacesL (stripL "##growth".data))
      ∧ (startsHash (stripL "##growth".data) = false →
          r.data = '#' :: removeSpacesL (stripL "##growth".data)) :=
  ⟨by decide, c2_tag_normalizer_amended "##growth" (by decide)⟩

theorem dropWhile_eq_self_of_none {p : Char → Bool} {cs : List Char}
    (h : ∀ c ∈ cs, p c = false) : cs.dropWhile p = cs := by
  cases cs with
  | nil => rfl
  | cons c rest => simp [List.dropWhile_cons, h c (List.mem_cons_self c rest)]

theorem stripL_eq_self {cs : List Char} (h : ∀ c ∈ cs, isPyStrWS c = false) :
    stripL cs = cs := by
  unfold stripL
  rw [dropWhile_eq_self_of_none h,
    dropWhile_eq_self_of_none (fun c hc => h c (List.mem_reverse.mp hc)),
    List.reverse_reverse]

/-- C9 (confirmed): the tag normalizer is stable on an already-normalized
tag — non-empty, containing no whitespace (hence trimmed), starting with
exactly one `#`: it returns the tag unchanged. -/
theorem c9_normalizer_idempotent (t : String) (h0 : t ≠ "")
    (hws : ∀ c ∈ t.data, isPyStrWS c = false)
    (hh : startsHash t.data = true)
    (_hone : leadHashes t.data = 1) :
    cleanTagOpt (JVal.str t) = some t := by
  obtain ⟨l⟩ := t
  have hl : l ≠ [] := by
    intro h
    subst h
    exact h0 rfl
  have hstrip : stripL l = l := stripL_eq_self hws
  unfold cleanTagOpt
  simp only [pyStr]
  rw [hstrip, if_neg (by simpa [List.isEmpty_iff] using hl)]
  unfold cleanTagCore
  rw [if_pos hh]
  have : removeSpacesL l = l := by
    apply List.filter_eq_self.mpr
    intro c hc
    have hcs : isPyStrWS c = false := hws c hc
    simp only [bne_iff_ne, ne_eq]
    intro hcsp
    subst hcsp
    simp [isPyStrWS] at hcs
  rw [this]

theorem c9_normalizer_idempotent_witness :
    "#growth" ≠ "" ∧ (∀ c ∈ "#growth".data, isPyStrWS c = false) ∧
    startsHash "#growth".data = true ∧ leadHashes "#growth".data = 1 ∧
    cleanTagOpt (JVal.str "#growth") = some "#growth" :=
  ⟨by decide, by decide, by decide, by decide,
    c9_normalizer_idempotent "#growth" (by decide) (by decide) (by decide) (by decide)⟩

/-- C4 counterexample: for the well-formed schema response
`\x7b"hashtags": ["##a", "", "a\tb"]\x7d` (N = 3 string elements) the
result is `"##a #a\tb"`: only 2 space-separated tokens (the empty element
is skipped, so min(N,10) = 3 fails), the first token starts with two `#`
characters (not exactly one), and the second contains a tab, which is a
whitespace character (`replace(" ", "")` removes only spaces). -/
theorem c4_counterexample :
    parseHashtagsE (some "\x7b\"hashtags\": [\"##a\", \"\", \"a\\tb\"]\x7d") =
      Except.ok "##a #a\tb"
    ∧ jsonLoads "\x7b\"hashtags\": [\"##a\", \"\", \"a\\tb\"]\x7d" =
        some (JVal.obj [("hashtags",
          JVal.arr [JVal.str "##a", JVal.str "", JVal.str "a\tb"])])
    ∧ [JVal.str "##a", JVal.str "", JVal.str "a\tb"].length = 3
    ∧ (cleanTags [JVal.str "##a", JVal.str "", JVal.str "a\tb"]).take 10 = ["##a", "#a\tb"]
    ∧ (["##a", "#a\tb"] : List String).length ≠ min 3 10
    ∧ leadHashes "##a".data ≠ 1
    ∧ '\t' ∈ "#a\tb".data ∧ isPyStrWS '\t' = true :=
  ⟨by rfl, by rfl, by rfl, by decide, by decide, by decide, by decide, by rfl⟩

/-- C4 (corrected): for a well-formed schema response whose tag list has
string elements, the result is the space-join of the cleaned tags,
truncated to 10; the token count is `min(M, 10)` where `M` counts the
elements that are non-empty after trimming (not the raw element count N),
and every token is non-empty, starts with *at least* one `#`, and
contains no space (other whitespace, such as tabs, may remain). -/
theorem c4_wellformed_amended (raw : String) (kvs : List (String × JVal)) (tags : List JVal)
    (h1 : jsonLoads (pyStrip raw) = some (JVal.obj kvs))
    (ht : objGetD kvs "hashtags" (JVal.arr []) = JVal.arr tags)
    (_hstr : ∀ v ∈ tags, ∃ s, v = JVal.str s) :
    parseHashtagsE (some raw) =
      Except.ok (String.intercalate " " ((cleanTags tags).take 10))
    ∧ ((cleanTags tags).take 10).length = min (tags.filter validTag).length 10
    ∧ (∀ tok ∈ (cleanTags tags).take 10,
        tok ≠ "" ∧ startsHash tok.data = true ∧ ' ' ∉ tok.data) := by
  have h0 : pyStrip raw ≠ "" := by
    intro h
    rw [h, show jsonLoads "" = none from rfl] at h1
    exact Option.noConfusion h1
  refine ⟨?_, ?_, ?_⟩
  · unfold parseHashtagsE extractPayload
    simp only [pyOrStr]
    rw [if_neg h0, h1]
    simp only [ht]
  · rw [List.length_take, cleanTags_length, Nat.min_comm]
  · intro tok htok
    have hmem : tok ∈ cleanTags tags := List.take_subset 10 _ htok
    obtain ⟨v, _, hvo⟩ := List.mem_filterMap.mp hmem
    exact cleanTagOpt_some_props hvo

theorem c4_wellformed_amended_witness :
    jsonLoads (pyStrip "\x7b\"hashtags\": [\"#A\", \"B\"]\x7d") =
      some (JVal.obj [("hashtags", JVal.arr [JVal.str "#A", JVal.str "B"])])
    ∧ (parseHashtagsE (some "\x7b\"hashtags\": [\"#A\", \"B\"]\x7d") =
        Except.ok (String.intercalate " "
          ((cleanTags [JVal.str "#A", JVal.str "B"]).take 10))
      ∧ ((cleanTags [JVal.str "#A", JVal.str "B"]).take 10).length
          = min ([JVal.str "#A", JVal.str "B"].filter validTag).length 10
      ∧ (∀ tok ∈ (cleanTags [JVal.str "#A", JVal.str "B"]).take 10,
          tok ≠ "" ∧ startsHash tok.data = true ∧ ' ' ∉ tok.data)) :=
  ⟨by rfl,
    c4_wellformed_amended "\x7b\"hashtags\": [\"#A\", \"B\"]\x7d"
      [("hashtags", JVal.arr [JVal.str "#A", JVal.str "B"])]
      [JVal.str "#A", JVal.str "B"]
      (by rfl) (by rfl)
      (by
        intro v hv
        rcases List.mem_cons.mp hv with h | h
        · exact ⟨"#A", h⟩
        · rcases List.mem_cons.mp h with h2 | h2
          · exact ⟨"B", h2⟩
          · exact absurd h2 (List.not_mem_nil v))⟩

/-- C10 (confirmed): when the completion result's `content` entry is
absent or `None`, `generate_hashtags` does not raise: the hashtag string
is empty, and the metadata still carries the full `llm` entry with
`model`, `attempts`, `usage`, `length`, `estimated_cost_usd` and `error`
read from the completion result by `.get` (with defaults `None`, `\x7b\x7d`
and `0.0` for absent keys). -/
theorem c10_content_missing (llm : LlmResult)
    (h : llm.content = none ∨ llm.content = some none) :
    generate_hashtags llm =
      Except.ok ("",
        { model := llm.modelV.getD JVal.null
          attempts := llm.attemptsV.getD JVal.null
          usage := llm.usageV.getD (JVal.obj [])
          length := llm.lengthV.getD (JVal.obj [])
          estimated_cost_usd := llm.costV.getD (JVal.float "0.0")
          error := llm.errorV.getD JVal.null }) := by
  unfold generate_hashtags
  rcases h with h | h <;> rw [h] <;> rfl

theorem c10_content_missing_witness :
    generate_hashtags
        ⟨some none, some (JVal.str "gpt-4o-mini"), some (JVal.int 2), none, none,
          some (JVal.float "0.003"), some JVal.null⟩ =
      Except.ok ("",
        { model := JVal.str "gpt-4o-mini", attempts := JVal.int 2,
          usage := JVal.obj [], length := JVal.obj [],
          estimated_cost_usd := JVal.float "0.003", error := JVal.null }) :=
  c10_content_missing _ (Or.inr rfl)

/-- C5 (confirmed): with no `api_key` in the config and no environment
credential, `generate_post_image` returns `(None, \x7b"error": <non-empty>\x7d)`
at once.  The image-client outcome `env.clientResult` is universally
quantified and the returned value does not depend on it, which is the
embedding's reading of "no network call is attempted". -/
theorem c5_no_credential (post topic : String) (cfg : ImgConfig) (env : ImgEnv)
    (fs : FileSys) (hc : cfg.api_key = none) (he : env.apiKeyEnv = none) :
    generate_post_image post topic cfg env fs =
      Except.ok (none, [("error", "OPENAI_API_KEY not set")], fs)
    ∧ "OPENAI_API_KEY not set" ≠ "" := by
  refine ⟨?_, by decide⟩
  unfold generate_post_image resolveApiKey
  rw [hc, he]
  rfl

theorem c5_no_credential_witness :
    generate_post_image "post" "topic" ⟨none, none, none, TimeoutVal.absent⟩
        ⟨none, Except.error "boom", "dec", Except.ok (), "r"⟩ [] =
      Except.ok (none, [("error", "OPENAI_API_KEY not set")], [])
    ∧ "OPENAI_API_KEY not set" ≠ "" :=
  c5_no_credential "post" "topic" ⟨none, none, none, TimeoutVal.absent⟩
    ⟨none, Except.error "boom", "dec", Except.ok (), "r"⟩ [] rfl rfl

theorem imgTry_ok_none (image_model image_size : String) (env : ImgEnv) (fs : FileSys)
    (r : Option String × List (String × String) × FileSys)
    (h : imgTryBlock image_model image_size env fs = Except.ok r) (hn : r.1 = none) :
    mFind r.2.1 "error" = some "Image response missing b64_json" := by
  unfold imgTryBlock at h
  rcases hcr : env.clientResult with t | b64
  · rw [hcr] at h
    exact Except.noConfusion h
  · rw [hcr] at h
    simp only at h
    by_cases hb : truthyS b64 = false
    · rw [if_pos hb] at h
      injection h with h2
      subst h2
      rfl
    · rw [if_neg hb] at h
      rcases hd : b64decode (pyOrStr b64) with _ | bytes
      · rw [hd] at h
        exact Except.noConfusion h
      · rw [hd] at h
        rcases hw : env.writeResult with t | u
        · rw [hw] at h
          exact Except.noConfusion h
        · rw [hw] at h
          injection h with h2
          subst h2
          simp at hn

theorem imgTry_error_src (image_model image_size : String) (env : ImgEnv) (fs : FileSys)
    (t : String) (h : imgTryBlock image_model image_size env fs = Except.error t) :
    env.clientResult = Except.error t ∨ t = env.decodeErrText ∨
    env.writeResult = Except.error t := by
  unfold imgTryBlock at h
  rcases hcr : env.clientResult with t2 | b64
  · rw [hcr] at h
    injection h with h2
    subst h2
    exact Or.inl rfl
  · rw [hcr] at h
    simp only at h
    by_cases hb : truthyS b64 = false
    · rw [if_pos hb] at h
      exact Except.noConfusion h
    · rw [if_neg hb] at h
      rcases hd : b64decode (pyOrStr b64) with _ | bytes
      · rw [hd] at h
        injection h with h2
        subst h2
        exact Or.inr (Or.inl rfl)
      · rw [hd] at h
        rcases hw : env.writeResult with t2 | u
        · rw [hw] at h
          injection h with h2
          subst h2
          exact Or.inr (Or.inr rfl)
        · rw [hw] at h
          exact Except.noConfusion h

/-- C1 (corrected): provided the `timeout` config value converts to a
float (it is read before the `try`, so a bad value raises to the caller —
see the counterexample), `generate_post_image` never raises: it returns a
tuple, and every failure result carries an `"error"` entry, which can be
the empty string only when the caught exception's own text was empty. -/
theorem c1_never_raises_amended (post topic : String) (cfg : ImgConfig) (env : ImgEnv)
    (fs : FileSys) (hf : floatConv cfg.timeout = Except.ok ()) :
    ∃ res meta fs2, generate_post_image post topic cfg env fs = Except.ok (res, meta, fs2)
      ∧ (res = none → ∃ s, mFind meta "error" = some s ∧ (s = "" → caughtEmptyText env)) := by
  simp only [generate_post_image]
  by_cases hk : truthyS (resolveApiKey cfg env.apiKeyEnv) = false
  · rw [if_pos hk]
    exact ⟨none, _, fs, rfl,
      fun _ => ⟨"OPENAI_API_KEY not set", rfl, fun he => absurd he (by decide)⟩⟩
  · rw [if_neg hk, hf]
    rcases htry : imgTryBlock (cfg.image_model.getD "gpt-image-1")
        (cfg.image_size.getD "1024x1024") env fs with t | r
    · refine ⟨none, _, fs, rfl, fun _ => ⟨t, rfl, fun he => ?_⟩⟩
      subst he
      rcases imgTry_error_src _ _ env fs "" htry with h | h | h
      · exact Or.inl h
      · exact Or.inr (Or.inl h.symm)
      · exact Or.inr (Or.inr h)
    · obtain ⟨res, meta, fs2⟩ := r
      refine ⟨res, meta, fs2, rfl, fun hres => ?_⟩
      have hm := imgTry_ok_none _ _ env fs (res, meta, fs2) htry hres
      exact ⟨"Image response missing b64_json", hm, fun he => absurd he (by decide)⟩

theorem c1_never_raises_amended_witness :
    floatConv TimeoutVal.absent = Except.ok () ∧
    (∃ res meta fs2,
      generate_post_image "post" "topic" ⟨some "k", none, none, TimeoutVal.absent⟩
          ⟨none, Except.error "boom", "dec", Except.ok (), "r"⟩ [] =
        Except.ok (res, meta, fs2)
      ∧ (res = none → ∃ s, mFind meta "error" = some s ∧
          (s = "" → caughtEmptyText ⟨none, Except.error "boom", "dec", Except.ok (), "r"⟩))) :=
  ⟨rfl, c1_never_raises_amended "post" "topic" ⟨some "k", none, none, TimeoutVal.absent⟩
    ⟨none, Except.error "boom", "dec", Except.ok (), "r"⟩ [] rfl⟩

/-- C1 counterexample: the claim fails in two ways.  With a config whose
`timeout` is the string `"x"`, the `float()` conversion on line 89 runs
before the `try` and the `ValueError` propagates to the caller.  And when
the image client raises an exception whose text is empty, the returned
metadata's `"error"` entry is the empty string, not a non-empty one. -/
theorem c1_counterexample :
    generate_post_image "post" "topic" ⟨some "k", none, none, TimeoutVal.strv "x"⟩
        ⟨none, Except.ok (some "AAAA"), "dec", Except.ok (), "r"⟩ [] =
      Except.error "could not convert string to float: x"
    ∧ generate_post_image "post" "topic" ⟨some "k", none, none, TimeoutVal.absent⟩
        ⟨none, Except.error "", "dec", Except.ok (), "r"⟩ [] =
      Except.ok (none,
        [("error", ""), ("model", "gpt-image-1"), ("size", "1024x1024")], [])
    ∧ mFind [("error", ""), ("model", "gpt-image-1"), ("size", "1024x1024")] "error" =
        some ""
    ∧ ("" : String).length = 0 :=
  ⟨by rfl, by rfl, by rfl, by rfl⟩

/-- C8 (confirmed): on success with a valid base64 payload, the returned
path names the newly written temporary file — `pbcg_` in front, `.png` at
the end — whose contents are exactly the decoded payload; the file is
still present in the returned filesystem (never deleted), and the
metadata's `"path"` entry equals the returned path.  Freshness of the
name (`hfresh`) models the uniqueness guarantee of
`tempfile.NamedTemporaryFile`. -/
theorem c8_image_success (post topic : String) (cfg : ImgConfig) (env : ImgEnv)
    (fs : FileSys) (b64 : String) (bytes : List Nat)
    (hk : truthyS (resolveApiKey cfg env.apiKeyEnv) = true)
    (hfc : floatConv cfg.timeout = Except.ok ())
    (hc : env.clientResult = Except.ok (some b64))
    (hb : b64 ≠ "")
    (hd : b64decode b64 = some bytes)
    (hw : env.writeResult = Except.ok ())
    (hfresh : fsFind fs ("pbcg_" ++ env.tmpRand ++ ".png") = none) :
    ∃ p, generate_post_image post topic cfg env fs
        = Except.ok (some p,
            [("model", cfg.image_model.getD "gpt-image-1"),
             ("size", cfg.image_size.getD "1024x1024"), ("path", p)],
            (p, bytes) :: fs)
      ∧ p = "pbcg_" ++ env.tmpRand ++ ".png"
      ∧ "pbcg_".data <+: p.data
      ∧ ".png".data <:+ p.data
      ∧ fsFind fs p = none
      ∧ fsFind ((p, bytes) :: fs) p = some bytes
      ∧ mFind [("model", cfg.image_model.getD "gpt-image-1"),
               ("size", cfg.image_size.getD "1024x1024"), ("path", p)] "path" = some p := by
  refine ⟨"pbcg_" ++ env.tmpRand ++ ".png", ?_, rfl, ?_, ?_, hfresh, ?_, ?_⟩
  · simp only [generate_post_image, imgTryBlock, hc, hfc]
    rw [if_neg (by simp [hk]), if_neg (by simp [truthyS, hb])]
    simp only [pyOrStr, hd, hw]
  · have hdata : ("pbcg_" ++ env.tmpRand ++ ".png").data
        = "pbcg_".data ++ (env.tmpRand.data ++ ".png".data) := by
      simp [String.data_append]
    rw [hdata]
    exact List.prefix_append _ _
  · have hdata : ("pbcg_" ++ env.tmpRand ++ ".png").data
        = ("pbcg_".data ++ env.tmpRand.data) ++ ".png".data := by
      simp [String.data_append]
    rw [hdata]
    exact List.suffix_append _ _
  · unfold fsFind
    rw [List.find?_cons_of_pos _ (by simp)]
  · rfl

theorem c8_image_success_witness :
    truthyS (resolveApiKey ⟨some "k", none, none, TimeoutVal.absent⟩ none) = true ∧
    b64decode "AAAA" = some [0, 0, 0] ∧
    (∃ p, generate_post_image "post" "topic" ⟨some "k", none, none, TimeoutVal.absent⟩
          ⟨none, Except.ok (some "AAAA"), "dec", Except.ok (), "img1"⟩ []
        = Except.ok (some p,
            [("model", (ImgConfig.mk (some "k") none none TimeoutVal.absent).image_model.getD "gpt-image-1"),
             ("size", (ImgConfig.mk (some "k") none none TimeoutVal.absent).image_size.getD "1024x1024"),
             ("path", p)],
            (p, [0, 0, 0]) :: ([] : FileSys))
      ∧ p = "pbcg_" ++ (ImgEnv.mk none (Except.ok (some "AAAA")) "dec" (Except.ok ()) "img1").tmpRand ++ ".png"
      ∧ "pbcg_".data <+: p.data
      ∧ ".png".data <:+ p.data
      ∧ fsFind [] p = none
      ∧ fsFind ((p, [0, 0, 0]) :: ([] : FileSys)) p = some [0, 0, 0]
      ∧ mFind [("model", (ImgConfig.mk (some "k") none none TimeoutVal.absent).image_model.getD "gpt-image-1"),
               ("size", (ImgConfig.mk (some "k") none none TimeoutVal.absent).image_size.getD "1024x1024"),
               ("path", p)] "path" = some p) :=
  ⟨rfl, rfl,
    c8_image_success "post" "topic" ⟨some "k", none, none, TimeoutVal.absent⟩
      ⟨none, Except.ok (some "AAAA"), "dec", Except.ok (), "img1"⟩ [] "AAAA" [0, 0, 0]
      rfl rfl rfl (by decide) rfl rfl rfl⟩
